import Mathlib

/-!
Verification development for the query-construction and model-binding core
of the dancewing/revel ORM layer.

The Go sources are shallowly embedded: pure string/list manipulation is
translated directly, Go maps become association lists (with map-iteration
order passed explicitly where the source ranges over a map), panics and
`os.Exit` become `Except.error`, and the external collaborators (SQL
dialect, time library) become explicit parameter structures, per the spec's
interface boundary.
-/

namespace RevelOrm

/-- `strings.ToLower` restricted to ASCII identifiers (the only characters
Go struct-field and column names use here). -/
def lowerStr (s : String) : String :=
  String.mk (s.data.map (fun c =>
    if 'A' ≤ c ∧ c ≤ 'Z' then Char.ofNat (c.toNat + 32) else c))

/-- Association-list lookup, modelling a Go `map[string]T` read. -/
def alookup {α : Type} : List (String × α) → String → Option α
  | [], _ => none
  | (k, v) :: rest, key => if k = key then some v else alookup rest key

/-- Association-list update, modelling a Go `map[string]T` write
(`m[key] = v`): replaces the binding if present, appends otherwise. -/
def assocSet {α : Type} : List (String × α) → String → α → List (String × α)
  | [], key, v => [(key, v)]
  | (k, w) :: rest, key, v =>
      if k = key then (key, v) :: rest else (k, w) :: assocSet rest key v

/-- `strings.Join(parts, sep)`. -/
def joinSep (sep : String) : List String → String
  | [] => ""
  | [x] => x
  | x :: rest => x ++ sep ++ joinSep sep rest

/-- Concatenation of a list of strings. -/
def strConcat : List String → String
  | [] => ""
  | s :: rest => s ++ strConcat rest

/-- A SQL-bindable Go `interface{}` value as it can reach the condition
compiler: nil, booleans, integers, strings, and slices thereof. -/
inductive Val : Type where
  | vnil : Val
  | vbool : Bool → Val
  | vint : Int → Val
  | vstr : String → Val
  | vlist : List Val → Val

mutual

/-- `ToStr` from utils.go restricted to the embedded value type: booleans
via `strconv.FormatBool`, integers via base-10 formatting, strings as
themselves, and the `fmt.Sprintf` percent-v fallback for nil and slices. -/
def ToStr : Val → String
  | .vnil => "<nil>"
  | .vbool b => if b then "true" else "false"
  | .vint n => toString n
  | .vstr s => s
  | .vlist l => "[" ++ joinSep " " (toStrList l) ++ "]"

/-- Elementwise rendering of a slice value. -/
def toStrList : List Val → List String
  | [] => []
  | v :: rest => ToStr v :: toStrList rest

end

/-- Modelled from the spec: the semantic field-type tags (`TypeTimeField`,
`RelForeignKey`, ...) are declared outside the available sources; only
their distinctness matters to this layer, so they are fixed distinct
numerals here. -/
def TypeBooleanField : Nat := 1

def TypeCharField : Nat := 2

def TypeTimeField : Nat := 4

def TypeDateField : Nat := 8

def TypeDateTimeField : Nat := 16

def RelForeignKey : Nat := 32

def RelOneToOne : Nat := 64

def RelManyToMany : Nat := 128

def RelReverseOne : Nat := 256

def RelReverseMany : Nat := 512

/-- The external time library at its interface boundary: given the
temporal field-type tag and a string argument, produce the reparsed and
reformatted string (utils.go lines 309-337 delegate this to
`time.ParseInLocation`/`Format`, which are outside this layer). All
theorems below hold for every such collaborator. -/
structure TimeLib : Type where
  normalize : Nat → String → String

/-- The recognized operator keywords (the `operators` map). -/
def operators : List String :=
  ["exact", "iexact", "contains", "icontains", "gt", "gte", "lt", "lte",
   "eq", "nq", "ne", "startswith", "endswith", "istartswith", "iendswith",
   "in", "between", "isnull"]

/-- Modelled from the spec: the field-path segment separator (the
`ExprSep` constant is declared outside the available sources; the spec
fixes the filter mini-language to double-underscore-delimited segments). -/
def ExprSep : String := "__"

mutual

/-- One step of `getFlatParams` (utils.go): a nil argument is kept, a
string argument against a temporal-typed field is handed to the external
time library, scalars pass through, and a slice is flattened recursively
with its nil elements dropped. -/
def flatVal (ext : TimeLib) (ft : Option Nat) : Val → List Val
  | .vnil => [Val.vnil]
  | .vbool b => [Val.vbool b]
  | .vint n => [Val.vint n]
  | .vstr s =>
      [Val.vstr (match ft with
        | some t =>
            if t = TypeTimeField ∨ t = TypeDateField ∨ t = TypeDateTimeField then
              ext.normalize t s
            else s
        | none => s)]
  | .vlist l => flatListInner ext ft l

/-- Flattening of the elements of a slice argument: nil elements are
skipped (utils.go lines 355-374), everything else is flattened. -/
def flatListInner (ext : TimeLib) (ft : Option Nat) : List Val → List Val
  | [] => []
  | .vnil :: rest => flatListInner ext ft rest
  | v :: rest => flatVal ext ft v ++ flatListInner ext ft rest

end

/-- `getFlatParams` (utils.go line 287): flatten the argument list. -/
def getFlatParams (ext : TimeLib) (ft : Option Nat) : List Val → List Val
  | [] => []
  | a :: rest => flatVal ext ft a ++ getFlatParams ext ft rest

/-- The dialect collaborator at its interface boundary (spec section 6):
identifier quoting, positional bind-variable syntax, table naming, the
statement suffix, and the per-operator SQL keyword table. -/
structure Dialect : Type where
  quoteField : String → String
  bindVar : Nat → String
  quotedTableForQuery : String → String → String
  querySuffix : String
  operatorSQL : String → String

/-- The per-column data of the gorp-side `ColumnMap` that the condition
compiler reads: struct field name, storage column name and semantic type
tag (the full `ColumnMap` declaration is outside the available sources). -/
structure ColumnMap : Type where
  name : String
  column : String
  fieldType : Nat := 0
  deriving DecidableEq

/-- The gorp-side `TableMap` as the condition compiler sees it: the four
lookup maps plus naming. -/
structure TableMap : Type where
  tableName : String
  schemaName : String
  fieldMap : List (String × ColumnMap)
  fieldLowMap : List (String × ColumnMap)
  columnMap : List (String × ColumnMap)
  columnLowMap : List (String × ColumnMap)

/-- Modelled from the spec: the population of the four lookup maps is not
in the available sources; per the map names and the spec's resolution
rules they are keyed by exact field name, lowercased field name, exact
column name and lowercased column name respectively. -/
def mkTableMap (tn sn : String) (cols : List ColumnMap) : TableMap :=
  { tableName := tn
    schemaName := sn
    fieldMap := cols.map (fun c => (c.name, c))
    fieldLowMap := cols.map (fun c => (lowerStr c.name, c))
    columnMap := cols.map (fun c => (c.column, c))
    columnLowMap := cols.map (fun c => (lowerStr c.column, c)) }

/-- `TableMap.GetByAny` (part_000 lines 124-138), translated lookup for
lookup. Note the fourth lookup consults `columnLowMap` with the raw,
unlowered name, exactly as the source does. -/
def TableMap.GetByAny (t : TableMap) (name : String) : Option ColumnMap :=
  match alookup t.fieldMap name with
  | some fi => some fi
  | none =>
    match alookup t.fieldLowMap (lowerStr name) with
    | some fi => some fi
    | none =>
      match alookup t.columnMap name with
      | some fi => some fi
      | none => alookup t.columnLowMap name

/-- `TableMap.parseExprs` (part_000 lines 276-297): one segment is a bare
name, two segments use the second, anything else resolves nothing. -/
def TableMap.parseExprs (t : TableMap) (exprs : List String) : Option ColumnMap :=
  let name := match exprs with
    | [e] => e
    | [_, e2] => e2
    | _ => ""
  if name ≠ "" then t.GetByAny name else none

/-- `GenerateOperatorSQL` (part_000 lines 469-527): flatten the arguments,
then produce the operator's SQL fragment and the bound-parameter list;
panics become errors. -/
def GenerateOperatorSQL (d : Dialect) (ext : TimeLib) (fi : ColumnMap)
    (operator : String) (args : List Val) : Except String (String × List Val) :=
  let params := getFlatParams ext (some fi.fieldType) args
  match params with
  | [] => .error ("operator " ++ operator ++ " need at least one args")
  | arg :: _ =>
    if operator = "in" then
      let marks := params.map (fun _ => "?")
      .ok ("IN (" ++ joinSep ", " marks ++ ")", params)
    else if operator = "between" then
      if params.length ≠ 2 then
        .error ("operator " ++ operator ++ " need 2 args")
      else
        .ok ("BETWEEN ? AND ?", params)
    else
      if params.length > 1 then
        .error ("operator " ++ operator ++ " need 1 args")
      else
        let sql := d.operatorSQL operator
        if operator = "exact" then
          match arg with
          | .vnil => .ok (sql, params.set 0 (Val.vstr "IS NULL"))
          | _ => .ok (sql, params)
        else if operator = "iexact" ∨ operator = "contains" ∨ operator = "icontains" ∨
            operator = "startswith" ∨ operator = "endswith" ∨
            operator = "istartswith" ∨ operator = "iendswith" then
          let param := (ToStr arg).replace "%" "\\%"
          let param :=
            if operator = "contains" ∨ operator = "icontains" then
              "%" ++ param ++ "%"
            else if operator = "startswith" ∨ operator = "istartswith" then
              param ++ "%"
            else if operator = "endswith" ∨ operator = "iendswith" then
              "%" ++ param
            else param
          .ok (sql, params.set 0 (Val.vstr param))
        else if operator = "isnull" then
          match arg with
          | .vbool b => .ok ((if b then "IS NULL" else "IS NOT NULL"), ([] : List Val))
          | _ => .error ("operator " ++ operator ++ " need a bool value")
        else
          .ok (sql, params)

/-- Modelled from the spec: one entry of a Condition Tree — either a leaf
comparison (field path, argument list, join flag, negation flag) or a
nested sub-condition; the `Condition` type itself is declared outside the
available sources, and a whole tree is the list of its entries. -/
inductive CondItem : Type where
  | leaf (exprs : List String) (args : List Val) (isOr : Bool) (isNot : Bool) : CondItem
  | sub (cond : List CondItem) (isOr : Bool) (isNot : Bool) : CondItem

/-- The OR-join flag of a condition entry. -/
def CondItem.orFlag : CondItem → Bool
  | .leaf _ _ o _ => o
  | .sub _ o _ => o

/-- The negation flag of a condition entry. -/
def CondItem.notFlag : CondItem → Bool
  | .leaf _ _ _ n => n
  | .sub _ _ n => n

mutual

/-- One loop iteration of `getCondSQL` (part_000 lines 307-356): the
AND/OR prefix for non-first entries, the NOT prefix, then either the
parenthesized recursive compilation of a sub-condition or the leaf's
operator compilation. -/
def condValSQL (d : Dialect) (ext : TimeLib) (t : TableMap) (p : CondItem)
    (i : Nat) : Except String (String × List Val) :=
  let pre := (if 0 < i then (if p.orFlag then "OR " else "AND ") else "") ++
    (if p.notFlag then "NOT " else "")
  match p with
  | .sub c _ _ => do
      let (w, ps) ← condListSQL d ext t c 0
      let w2 := if w ≠ "" then "( " ++ w ++ ") " else w
      pure (pre ++ w2, ps)
  | .leaf exprs args _ _ =>
      match exprs.getLast? with
      | none => .error "index out of range"
      | some lastE =>
        let stripped := if operators.contains lastE then (lastE, exprs.dropLast) else ("", exprs)
        match t.parseExprs stripped.2 with
        | none => .error ("unknown field/column name " ++ joinSep ExprSep exprs)
        | some fi =>
          let operator := if stripped.1 = "" then "exact" else stripped.1
          do
            let (operSQL, args2) ← GenerateOperatorSQL d ext fi operator args
            pure (pre ++ fi.column ++ " " ++ operSQL ++ " ", args2)

/-- The loop of `getCondSQL` over the entries of a condition, carrying the
entry index and concatenating SQL text and parameters in order. -/
def condListSQL (d : Dialect) (ext : TimeLib) (t : TableMap) :
    List CondItem → Nat → Except String (String × List Val)
  | [], _ => pure ("", [])
  | p :: rest, i => do
      let (w1, ps1) ← condValSQL d ext t p i
      let (w2, ps2) ← condListSQL d ext t rest (i + 1)
      pure (w1 ++ w2, ps1 ++ ps2)

end

/-- `getCondSQL` (part_000 lines 300-363): an empty (or nil) condition
compiles to nothing; at top level a non-empty result is prefixed with
`WHERE `. -/
def getCondSQL (d : Dialect) (ext : TimeLib) (t : TableMap)
    (cond : List CondItem) (sub : Bool) : Except String (String × List Val) :=
  if cond.isEmpty then pure ("", [])
  else do
    let (w, ps) ← condListSQL d ext t cond 0
    pure ((if ¬sub ∧ w ≠ "" then "WHERE " ++ w else w), ps)

/-- Whether an embedded fatal-by-panic computation succeeded. -/
def exOk {α : Type} : Except String α → Bool
  | .ok _ => true
  | .error _ => false

/-- The character loop of `camelString` (utils.go lines 226-243): an
underscore is dropped and capitalizes the next lowercase letter. -/
def camelChars : Bool → List Char → List Char
  | _, [] => []
  | flag, c :: rest =>
      if c = '_' then camelChars true rest
      else if flag then
        (if 'a' ≤ c ∧ c ≤ 'z' then Char.ofNat (c.toNat - 32) else c) :: camelChars false rest
      else c :: camelChars false rest

/-- `camelString` (utils.go): `xx_yy` to `XxYy`. -/
def camelString (s : String) : String :=
  String.mk (camelChars true s.data)

/-- The beego-side `fieldInfo` (model_fields.go), restricted to the
attributes the embedded operations read. Go pointer links to other model
descriptors (`relModelInfo`, `mi`) are modelled arena-style as the target
model's table name. -/
structure FieldInfo : Type where
  name : String := ""
  column : String := ""
  fullName : String := ""
  fieldType : Nat := 0
  gotype : String := ""
  dbcol : Bool := false
  auto : Bool := false
  pk : Bool := false
  transient : Bool := false
  rel : Bool := false
  reverse : Bool := false
  relTable : String := ""
  relModel : String := ""
  deriving DecidableEq

/-- The beego-side `fields` collection (model_fields.go lines 20-35), with
each Go map as an association list in insertion order. -/
structure Fields : Type where
  keys : List (String × FieldInfo) := []
  fields : List (String × FieldInfo) := []
  fieldsLow : List (String × FieldInfo) := []
  columns : List (String × FieldInfo) := []
  fieldsByType : List (Nat × List FieldInfo) := []
  fieldsRel : List FieldInfo := []
  fieldsReverse : List FieldInfo := []
  fieldsDB : List FieldInfo := []
  orders : List String := []
  dbcols : List String := []
  deriving DecidableEq

/-- `newFields` (model_fields.go line 114). -/
def newFields : Fields := {}

/-- Map update for `fieldsByType` keyed by the numeric type tag. -/
def fbtAdd (m : List (Nat × List FieldInfo)) (t : Nat) (fi : FieldInfo) :
    List (Nat × List FieldInfo) :=
  match m with
  | [] => [(t, [fi])]
  | (k, l) :: rest => if k = t then (k, l ++ [fi]) :: rest else (k, l) :: fbtAdd rest t fi

/-- `fields.Add` (model_fields.go lines 38-62): rejected (returning
`false`, with the collection unchanged) when the field name or the column
name is already present; otherwise records the field in every index. -/
def Fields.Add (f : Fields) (fi : FieldInfo) : Fields × Bool :=
  if (alookup f.fields fi.name).isNone ∧ (alookup f.columns fi.column).isNone then
    let f1 : Fields :=
      { f with
        columns := assocSet f.columns fi.column fi
        fields := assocSet f.fields fi.name fi
        fieldsLow := assocSet f.fieldsLow (lowerStr fi.name) fi
        fieldsByType := fbtAdd f.fieldsByType fi.fieldType fi
        orders := f.orders ++ [fi.column] }
    let f2 : Fields :=
      if fi.dbcol then
        { f1 with dbcols := f1.dbcols ++ [fi.column], fieldsDB := f1.fieldsDB ++ [fi] }
      else f1
    let f3 : Fields := if fi.rel then { f2 with fieldsRel := f2.fieldsRel ++ [fi] } else f2
    let f4 : Fields :=
      if fi.reverse then { f3 with fieldsReverse := f3.fieldsReverse ++ [fi] } else f3
    (f4, true)
  else (f, false)

/-- `fields.GetOnePrimaryKey` (model_fields.go lines 70-81): the first
entry of the keys map in iteration order, if any. -/
def Fields.GetOnePrimaryKey (f : Fields) : Option FieldInfo :=
  f.keys.head?.map Prod.snd

/-- The beego-side `modelInfo` (model.go lines 27-55), restricted to the
attributes the embedded operations read. -/
structure ModelInfo : Type where
  name : String := ""
  fullName : String := ""
  table : String := ""
  pkg : String := ""
  schemaName : String := ""
  fields : Fields := {}
  manual : Bool := false
  uniques : List String := []
  version : Option FieldInfo := none
  deriving DecidableEq

/-- `newM2MModelInfo` (model.go lines 728-797): requires exactly one
primary key on each endpoint (panic otherwise, embedded as an error), then
synthesizes the junction descriptor named `<table1>_<table2>` with one
foreign-key field per side, each using the side's primary-key column name.
The results of the two `fields.Add` calls are discarded, as in the
source. -/
def newM2MModelInfo (m1 m2 : ModelInfo) : Except String ModelInfo :=
  if m1.fields.keys.length ≠ 1 ∨ m2.fields.keys.length ≠ 1 then
    .error ("Many-to-Many Models (" ++ m1.table ++ "," ++ m2.table ++ ") must have one key")
  else
    match m1.fields.GetOnePrimaryKey, m2.fields.GetOnePrimaryKey with
    | some p1, some p2 =>
      let table := m1.table ++ "_" ++ m2.table
      let mname := camelString table
      let fullName := m1.pkg ++ "." ++ mname
      let f1 : FieldInfo :=
        { dbcol := true, gotype := p1.gotype, fieldType := RelForeignKey
          name := camelString m1.table, fullName := fullName ++ "." ++ camelString m1.table
          column := p1.column, rel := true, relTable := m1.table, relModel := m1.table }
      let f2 : FieldInfo :=
        { dbcol := true, gotype := p2.gotype, fieldType := RelForeignKey
          name := camelString m2.table, fullName := fullName ++ "." ++ camelString m2.table
          column := p2.column, rel := true, relTable := m2.table, relModel := m2.table }
      let fs1 := (Fields.Add newFields f1).1
      let fs2 := (Fields.Add fs1 f2).1
      let fs3 : Fields :=
        { fs2 with keys := assocSet (assocSet fs2.keys f1.name f1) f2.name f2 }
      .ok
        { name := mname, fullName := fullName, table := table, manual := false
          fields := fs3, uniques := [p1.column, p2.column] }
    | _, _ => .error "no primary key"

/-- The `_modelCache` registry (part_001 lines 108-114), with each Go map
as an association list. -/
structure ModelCache : Type where
  orders : List String := []
  cache : List (String × ModelInfo) := []
  cacheByFullName : List (String × ModelInfo) := []
  deriving DecidableEq

/-- `_modelCache.get`: lookup by table name. -/
def mcGet (mc : ModelCache) (table : String) : Option ModelInfo :=
  alookup mc.cache table

/-- `_modelCache.getByFullName`: lookup by fully-qualified type name. -/
def mcGetByFullName (mc : ModelCache) (name : String) : Option ModelInfo :=
  alookup mc.cacheByFullName name

/-- `_modelCache.set` (part_001 lines 147-155): stores the model under its
table name and its full name, appending the table to the order list when
it is new, and returns the previously stored model for that table. -/
def mcSet (mc : ModelCache) (table : String) (mi : ModelInfo) :
    ModelCache × Option ModelInfo :=
  let mii := alookup mc.cache table
  ({ orders := if mii.isNone then mc.orders ++ [table] else mc.orders
     cache := assocSet mc.cache table mi
     cacheByFullName := assocSet mc.cacheByFullName mi.fullName mi }, mii)

/-- `RegisterModelWithSchema` (part_002 lines 15-59) after the reflective
table-name and full-name computation: fatal (`os.Exit(2)`, embedded as an
error) when the full name or the table name is already registered,
otherwise the model is stored via `modelCache.set` with its table set and
`manual` marked. -/
def RegisterModelW (mc : ModelCache) (table : String) (mi : ModelInfo) :
    Except String ModelCache :=
  if (mcGetByFullName mc mi.fullName).isSome then
    .error ("model " ++ mi.fullName ++ " repeat register, must be unique")
  else if (mcGet mc table).isSome then
    .error ("table name " ++ table ++ " repeat register, must be unique")
  else
    .ok (mcSet mc table { mi with table := table, manual := true }).1

/-- Modelled from the spec: the synthetic "next version" parameter-source
marker used by bind plans (its constant declaration is outside the
available sources). -/
def versFieldConst : String := "[gorp_ver_field]"

/-- The running state of the SET-list loop of `bindUpdate`: the SQL built
so far, the bind-variable index, the parameter field-name list and the
version field name. -/
structure SetState : Type where
  sql : String
  x : Nat
  argFields : List String
  versField : String

/-- The settable-column test of `bindUpdate` (model_bindings.go line 198):
not auto-increment, not transient, and accepted by the column filter. -/
def settableCol (flt : FieldInfo → Bool) (col : FieldInfo) : Bool :=
  !col.auto && !col.transient && flt col

/-- The SET-list loop of `bindUpdate` (model_bindings.go lines 196-214),
over the given iteration order of the `fields.columns` map. The pointer
comparison `col == t.version` is modelled as value equality. -/
def updateSetLoop (d : Dialect) (flt : FieldInfo → Bool) (ver : Option FieldInfo) :
    SetState → List FieldInfo → SetState
  | st, [] => st
  | st, col :: rest =>
      if settableCol flt col then
        let sql2 := st.sql ++ (if 0 < st.x then ", " else "") ++
          d.quoteField col.column ++ "=" ++ d.bindVar st.x
        let st2 : SetState :=
          if some col = ver then
            { sql := sql2, x := st.x + 1
              argFields := st.argFields ++ [versFieldConst], versField := col.name }
          else
            { sql := sql2, x := st.x + 1
              argFields := st.argFields ++ [col.name], versField := st.versField }
        updateSetLoop d flt ver st2 rest
      else updateSetLoop d flt ver st rest

/-- The WHERE loop of `bindUpdate` (model_bindings.go lines 217-231), over
the given iteration order of the `fields.keys` map: the SQL fragment and
the key field names appended to both `argFields` and `keyFields`. -/
def updateWhere (d : Dialect) (y : Nat) : List FieldInfo → String × List String
  | [] => ("", [])
  | col :: rest =>
      let r := updateWhere d (y + 1) rest
      ((if 0 < y then " and " else "") ++ d.quoteField col.column ++ "=" ++ d.bindVar y ++ r.1,
       col.name :: r.2)

/-- The column of the configured version field, empty when none (the
source dereferences `t.version`, reachable only when one is set). -/
def versionColumn : Option FieldInfo → String
  | some v => v.column
  | none => ""

/-- The state of `bindUpdate` after the UPDATE head and the whole SET
loop over the given iteration order of the `fields.columns` map. -/
def updateSetState (d : Dialect) (m : ModelInfo) (flt : FieldInfo → Bool)
    (colsIter : List FieldInfo) : SetState :=
  updateSetLoop d flt m.version
    { sql := "update " ++ d.quotedTableForQuery m.schemaName m.table ++ " set "
      x := 0, argFields := [], versField := "" } colsIter

/-- The computed parts of a bind plan. -/
structure BindPlanR : Type where
  query : String
  argFields : List String
  keyFields : List String
  versField : String
  deriving DecidableEq

/-- `bindUpdate` (model_bindings.go lines 185-245) as the plan it computes
on first use: the UPDATE head and SET list, the WHERE clause over the
primary-key fields, and the optional optimistic-concurrency term for the
version column. The two map iteration orders (`fields.columns` and
`fields.keys`) are explicit parameters, since Go fixes neither. -/
def bindUpdatePlan (d : Dialect) (m : ModelInfo) (flt : FieldInfo → Bool)
    (colsIter keysIter : List FieldInfo) : BindPlanR :=
  let st := updateSetState d m flt colsIter
  let wr := updateWhere d 0 keysIter
  let args2 := st.argFields ++ wr.2
  let withVers :=
    if st.versField ≠ "" then
      (st.sql ++ " where " ++ wr.1 ++ " and " ++
        d.quoteField (versionColumn m.version) ++ "=" ++ d.bindVar st.x,
       args2 ++ [st.versField])
    else (st.sql ++ " where " ++ wr.1, args2)
  { query := withVers.1 ++ d.querySuffix
    argFields := withVers.2
    keyFields := wr.2
    versField := st.versField }

/-- The per-key equality terms of the claim's WHERE-clause description:
one `column=bindvar` term per key field, with successive bind-variable
indices. -/
def renderKeys (d : Dialect) (y : Nat) : List FieldInfo → List String
  | [] => []
  | col :: rest => (d.quoteField col.column ++ "=" ++ d.bindVar y) :: renderKeys d (y + 1) rest

/-- A concrete dialect in the shape the spec fixes for the collaborator
(section 6): pass-through quoting, `?` bind variables, and the
per-operator keyword table. -/
def sampleDialect : Dialect :=
  { quoteField := fun f => f
    bindVar := fun _ => "?"
    quotedTableForQuery := fun schema table => if schema = "" then table else schema ++ "." ++ table
    querySuffix := ";"
    operatorSQL := fun op =>
      if op = "exact" then "= ?"
      else if op = "gt" then "> ?"
      else if op = "gte" then ">= ?"
      else if op = "lt" then "< ?"
      else if op = "lte" then "<= ?"
      else if op = "ne" ∨ op = "nq" then "!= ?"
      else if op = "eq" then "= ?"
      else "LIKE ?" }

/-- A concrete time collaborator (identity reformatting). -/
def timeLib0 : TimeLib := { normalize := fun _ s => s }

/-- Column fixture: integer field `Age` stored as `age`. -/
def ageCol : ColumnMap := { name := "Age", column := "age" }

/-- Column fixture: field `UserName` stored with the mixed-case column
name `User_Name`. -/
def unCol : ColumnMap := { name := "UserName", column := "User_Name" }

/-- Table fixture for the condition compiler. -/
def tmUser : TableMap := mkTableMap "t_user" "" [ageCol, unCol]

/-- Field fixture: primary key `Id`. -/
def idF : FieldInfo := { name := "Id", column := "id", pk := true, dbcol := true }

/-- Field fixture: primary key `Uid` (composite-key model). -/
def uidF : FieldInfo := { name := "Uid", column := "uid", pk := true, dbcol := true }

/-- Field fixture: primary key `Gid` (composite-key model). -/
def gidF : FieldInfo := { name := "Gid", column := "gid", pk := true, dbcol := true }

/-- Field fixture: plain column `Name`. -/
def nameF : FieldInfo := { name := "Name", column := "name", dbcol := true }

/-- Field fixture: version column `Version`. -/
def verF : FieldInfo := { name := "Version", column := "version", dbcol := true }

/-- Model fixture with a composite key registered in the order
`Uid, Gid`, used against the update bind plan. -/
def mComposite : ModelInfo :=
  { name := "Member", fullName := "app.Member", table := "member", pkg := "app"
    fields :=
      { newFields with
        keys := [("Uid", uidF), ("Gid", gidF)]
        fields := [("Uid", uidF), ("Gid", gidF), ("Name", nameF)]
        columns := [("uid", uidF), ("gid", gidF), ("name", nameF)]
        orders := ["uid", "gid", "name"] }
    manual := true }

/-- Model fixture with a single key and a configured version column. -/
def mVersioned : ModelInfo :=
  { name := "Doc", fullName := "app.Doc", table := "t_doc", pkg := "app"
    fields :=
      { newFields with
        keys := [("Id", idF)]
        fields := [("Id", idF), ("Name", nameF), ("Version", verF)]
        columns := [("id", idF), ("name", nameF), ("version", verF)]
        orders := ["id", "name", "version"] }
    manual := true
    version := some verF }

/-- Model fixture `User` with the canonical auto-named primary-key column
`id`. -/
def userM : ModelInfo :=
  { name := "User", fullName := "app.User", table := "user", pkg := "app"
    fields :=
      { newFields with
        keys := [("Id", idF)]
        fields := [("Id", idF), ("Name", nameF)]
        columns := [("id", idF), ("name", nameF)]
        orders := ["id", "name"] }
    manual := true }

/-- Model fixture `Group`, whose primary-key column is also `id`. -/
def groupM : ModelInfo :=
  { name := "Group", fullName := "app.Group", table := "group", pkg := "app"
    fields :=
      { newFields with
        keys := [("Id", idF)]
        fields := [("Id", idF), ("Name", nameF)]
        columns := [("id", idF), ("name", nameF)]
        orders := ["id", "name"] }
    manual := true }

/-- Model fixture with no primary key at all. -/
def mNoKey : ModelInfo :=
  { name := "Tagless", fullName := "app.Tagless", table := "tagless", pkg := "app"
    fields :=
      { newFields with
        fields := [("Name", nameF)], columns := [("name", nameF)], orders := ["name"] }
    manual := true }

/-- Condition fixture: the single leaf `age__gt 18`. -/
def demoCond : List CondItem :=
  [CondItem.leaf ["age", "gt"] [Val.vint 18] false false]

/-- Looking a key up right after setting it yields the stored value. -/
theorem alookup_assocSet_self {α : Type} (m : List (String × α)) (k : String) (v : α) :
    alookup (assocSet m k v) k = some v := by
  induction m with
  | nil => simp [assocSet, alookup]
  | cons p rest ih =>
      obtain ⟨pk, pv⟩ := p
      by_cases h : pk = k
      · simp [assocSet, h, alookup]
      · simp [assocSet, h, alookup, ih]

/-- `joinSep` unfolded to a head term plus separator-prefixed tail. -/
theorem joinSep_cons_concat (sep x : String) :
    ∀ xs : List String, joinSep sep (x :: xs) = x ++ strConcat (xs.map fun t => sep ++ t) := by
  intro xs
  induction xs generalizing x with
  | nil => simp [joinSep, strConcat]
  | cons y rest ih => simp [joinSep, strConcat, ih y, String.append_assoc]

/-- The tail of the WHERE loop of `bindUpdate` emits one
separator-prefixed equality term per remaining key field. -/
theorem updateWhere_succ (d : Dialect) :
    ∀ (ks : List FieldInfo) (y : Nat),
      (updateWhere d (y + 1) ks).1 =
        strConcat ((renderKeys d (y + 1) ks).map fun t => " and " ++ t) := by
  intro ks
  induction ks with
  | nil => intro y; rfl
  | cons k rest ih =>
      intro y
      simp [updateWhere, renderKeys, strConcat, ih (y + 1), String.append_assoc]

/-- The WHERE loop of `bindUpdate` is the ` and `-join of the per-key
equality terms. -/
theorem updateWhere_zero (d : Dialect) (ks : List FieldInfo) :
    (updateWhere d 0 ks).1 = joinSep " and " (renderKeys d 0 ks) := by
  cases ks with
  | nil => rfl
  | cons k rest =>
      simp [updateWhere, renderKeys, updateWhere_succ d rest 0,
        joinSep_cons_concat " and ", String.append_assoc]

/-- With no version column configured, the SET loop never sets the version
field name. -/
theorem setLoop_versField_none (d : Dialect) (flt : FieldInfo → Bool) :
    ∀ (cols : List FieldInfo) (st : SetState),
      (updateSetLoop d flt none st cols).versField = st.versField := by
  intro cols
  induction cols with
  | nil => intro st; rfl
  | cons col rest ih =>
      intro st
      by_cases h : settableCol flt col = true
      · simp [updateSetLoop, h, ih]
      · simp [updateSetLoop, h, ih]

/-- If the version column does not occur in the remaining iteration, the
SET loop preserves the version field name. -/
theorem setLoop_versField_count0 (d : Dialect) (flt : FieldInfo → Bool) (v : FieldInfo) :
    ∀ (cols : List FieldInfo) (st : SetState), cols.count v = 0 →
      (updateSetLoop d flt (some v) st cols).versField = st.versField := by
  intro cols
  induction cols with
  | nil => intro st _; rfl
  | cons col rest ih =>
      intro st hc
      rw [List.count_cons] at hc
      have hcv : ¬col = v := by
        intro h; simp [h] at hc
      have hrest : rest.count v = 0 := by omega
      by_cases h : settableCol flt col = true
      · simp [updateSetLoop, h, hcv, ih _ hrest]
      · simp [updateSetLoop, h, ih _ hrest]

/-- If the (settable) version column occurs exactly once in the iteration
of the columns map, the SET loop records its field name. -/
theorem setLoop_versField_once (d : Dialect) (flt : FieldInfo → Bool) (v : FieldInfo) :
    ∀ (cols : List FieldInfo) (st : SetState),
      settableCol flt v = true → cols.count v = 1 →
      (updateSetLoop d flt (some v) st cols).versField = v.name := by
  intro cols
  induction cols with
  | nil => intro st _ hc; simp [List.count] at hc
  | cons col rest ih =>
      intro st hs hc
      rw [List.count_cons] at hc
      by_cases hcv : col = v
      · subst hcv
        have hrest : rest.count col = 0 := by simp at hc; omega
        simp [updateSetLoop, hs, setLoop_versField_count0 d flt col rest _ hrest]
      · have hrest : rest.count v = 1 := by simp [hcv] at hc; omega
        by_cases h : settableCol flt col = true
        · simp [updateSetLoop, h, hcv, ih _ hs hrest]
        · simp [updateSetLoop, h, ih _ hs hrest]

/-- C1: contrary to the claim, compiling an `exact` leaf whose single
argument is nil does not yield the fragment `IS NULL` with no parameter:
`GenerateOperatorSQL` keeps the dialect's `exact` fragment and instead
stores the string `IS NULL` as the single bound parameter
(`params[0] = "IS NULL"`, part_000 line 499), and `getCondSQL` passes both
through. -/
theorem exact_nil_binds_is_null_parameter :
    GenerateOperatorSQL sampleDialect timeLib0 ageCol "exact" [Val.vnil] =
      .ok ("= ?", [Val.vstr "IS NULL"]) ∧
    getCondSQL sampleDialect timeLib0 tmUser
        [CondItem.leaf ["age"] [Val.vnil] false false] false =
      .ok ("WHERE age = ? ", [Val.vstr "IS NULL"]) ∧
    (∀ (d : Dialect) (ext : TimeLib) (fi : ColumnMap),
      GenerateOperatorSQL d ext fi "exact" [Val.vnil] =
        .ok (d.operatorSQL "exact", [Val.vstr "IS NULL"])) :=
  ⟨rfl, rfl, fun _ _ _ => rfl⟩

/-- C3: evaluating the junction synthesis on the canonical `User`/`Group`
pair (both primary-key columns named `id`): the junction's table name is
`user_group` as claimed, but its field set records a single column — the
second foreign-key column is silently dropped because `fields.Add`
rejects the duplicate column name — even though the keys map receives two
entries. -/
theorem m2m_junction_duplicate_pk_column :
    (newM2MModelInfo userM groupM).map
        (fun j => (j.table, j.fields.orders, j.fields.keys.length, j.fields.fieldsRel.length)) =
      .ok ("user_group", ["id"], 2, 1) := rfl

/-- C4: the fourth resolution step is not case-insensitive column
matching: the column `User_Name` resolves by its exact spelling and by its
already-lowercase form, but the equal-up-to-case path `USER_NAME` resolves
to nothing — `GetByAny` consults the lowercase-column map with the raw
name (part_000 line 134) — and condition compilation then fails. -/
theorem column_lookup_not_case_insensitive :
    tmUser.GetByAny "User_Name" = some unCol ∧
    tmUser.GetByAny "user_name" = some unCol ∧
    lowerStr "USER_NAME" = lowerStr "User_Name" ∧
    tmUser.GetByAny "USER_NAME" = none ∧
    exOk (getCondSQL sampleDialect timeLib0 tmUser
      [CondItem.leaf ["USER_NAME"] [Val.vint 1] false false] false) = false :=
  ⟨rfl, rfl, rfl, rfl, rfl⟩

/-- C5: the `isnull` operator compiles a boolean argument to `IS NULL`
(true) or `IS NOT NULL` (false) with zero bound parameters, and fails
fatally on every non-boolean single argument. -/
theorem isnull_operator_semantics (d : Dialect) (ext : TimeLib) (fi : ColumnMap)
    (b : Bool) (n : Int) (s : String) :
    GenerateOperatorSQL d ext fi "isnull" [Val.vbool b] =
      .ok ((if b then "IS NULL" else "IS NOT NULL"), []) ∧
    exOk (GenerateOperatorSQL d ext fi "isnull" [Val.vnil]) = false ∧
    exOk (GenerateOperatorSQL d ext fi "isnull" [Val.vint n]) = false ∧
    exOk (GenerateOperatorSQL d ext fi "isnull" [Val.vstr s]) = false :=
  ⟨rfl, rfl, rfl, rfl⟩

/-- C6: the `in` operator over the arguments 1, 2, 3 — flat or nested —
compiles to `IN (?, ?, ?)` with the flattened parameter list, and fails
fatally with zero arguments. -/
theorem in_operator_semantics (d : Dialect) (ext : TimeLib) (fi : ColumnMap) :
    GenerateOperatorSQL d ext fi "in" [Val.vint 1, Val.vint 2, Val.vint 3] =
      .ok ("IN (?, ?, ?)", [Val.vint 1, Val.vint 2, Val.vint 3]) ∧
    GenerateOperatorSQL d ext fi "in" [Val.vlist [Val.vint 1, Val.vint 2], Val.vint 3] =
      .ok ("IN (?, ?, ?)", [Val.vint 1, Val.vint 2, Val.vint 3]) ∧
    exOk (GenerateOperatorSQL d ext fi "in" []) = false :=
  ⟨rfl, rfl, rfl⟩

/-- C7: the `between` operator over exactly the two flattened arguments
10, 20 compiles to `BETWEEN ? AND ?` with parameters 10, 20, and fails
fatally on one or three flattened arguments. -/
theorem between_operator_semantics (d : Dialect) (ext : TimeLib) (fi : ColumnMap) :
    GenerateOperatorSQL d ext fi "between" [Val.vint 10, Val.vint 20] =
      .ok ("BETWEEN ? AND ?", [Val.vint 10, Val.vint 20]) ∧
    exOk (GenerateOperatorSQL d ext fi "between" [Val.vint 10]) = false ∧
    exOk (GenerateOperatorSQL d ext fi "between"
      [Val.vint 10, Val.vint 20, Val.vint 30]) = false :=
  ⟨rfl, rfl, rfl⟩

/-- C9: condition compilation is deterministic — two runs of `getCondSQL`
on identical inputs (same dialect, time collaborator, table and condition
tree) produce the same SQL text and the same ordered parameter list; the
compilation path performs no map iteration and the embedded computation is
a pure function of its inputs. -/
theorem cond_sql_deterministic (d : Dialect) (ext : TimeLib) (t1 t2 : TableMap)
    (c1 c2 : List CondItem) (s : Bool) (ht : t1 = t2) (hc : c1 = c2) :
    getCondSQL d ext t1 c1 s = getCondSQL d ext t2 c2 s := by
  subst ht; subst hc; rfl

/-- C9 witness: the determinism theorem applied to the concrete filter
`age gt 18` on the user table, together with the evaluated compilation. -/
theorem cond_sql_deterministic_witness :
    getCondSQL sampleDialect timeLib0 tmUser demoCond false =
      getCondSQL sampleDialect timeLib0 tmUser demoCond false ∧
    getCondSQL sampleDialect timeLib0 tmUser demoCond false =
      .ok ("WHERE age > ? ", [Val.vint 18]) :=
  ⟨cond_sql_deterministic sampleDialect timeLib0 tmUser tmUser demoCond demoCond false rfl rfl,
   rfl⟩

/-- C10: junction synthesis requires exactly one primary-key field on each
endpoint: with zero or several keys on either side `newM2MModelInfo`
panics (embedded as an error) and produces no junction descriptor, and
with exactly one key on each side it succeeds. -/
theorem m2m_requires_single_key (m1 m2 : ModelInfo) :
    ((m1.fields.keys.length ≠ 1 ∨ m2.fields.keys.length ≠ 1) →
      exOk (newM2MModelInfo m1 m2) = false) ∧
    (m1.fields.keys.length = 1 → m2.fields.keys.length = 1 →
      exOk (newM2MModelInfo m1 m2) = true) := by
  constructor
  · intro h
    unfold newM2MModelInfo
    rw [if_pos h]
    rfl
  · intro h1 h2
    unfold newM2MModelInfo
    rw [if_neg (by simp [h1, h2])]
    obtain ⟨k1, hk1⟩ := List.length_eq_one.mp h1
    obtain ⟨k2, hk2⟩ := List.length_eq_one.mp h2
    simp [Fields.GetOnePrimaryKey, hk1, hk2, exOk]

/-- C10 witness: a key-less endpoint is rejected; the single-key
`User`/`Group` pair is accepted. -/
theorem m2m_requires_single_key_witness :
    exOk (newM2MModelInfo mNoKey userM) = false ∧
    exOk (newM2MModelInfo userM groupM) = true :=
  ⟨(m2m_requires_single_key mNoKey userM).1 (Or.inl (by decide)),
   (m2m_requires_single_key userM groupM).2 (by decide) (by decide)⟩

/-- C2 counterexample: the claim's "in the fields' registration order"
fails. `bindUpdate` ranges over the `fields.keys` map, whose iteration
order Go leaves unspecified: for the model whose keys are registered in
the order `Uid, Gid`, the reversed iteration order (a permutation of the
registered keys, hence a possible map iteration) produces a WHERE clause
whose terms are not in registration order. -/
theorem update_where_not_registration_order :
    ([gidF, uidF].Perm (mComposite.fields.keys.map Prod.snd)) ∧
    (bindUpdatePlan sampleDialect mComposite (fun _ => true)
        [uidF, gidF, nameF] [gidF, uidF]).query =
      "update member set uid=?, gid=?, name=? where gid=? and uid=?;" ∧
    joinSep " and " (renderKeys sampleDialect 0 (mComposite.fields.keys.map Prod.snd)) =
      "uid=? and gid=?" ∧
    (bindUpdatePlan sampleDialect mComposite (fun _ => true)
        [uidF, gidF, nameF] [gidF, uidF]).query ≠
      "update member set uid=?, gid=?, name=? where uid=? and gid=?;" :=
  ⟨List.Perm.swap uidF gidF [], rfl, rfl, by decide⟩

/-- C2 (amended): for every iteration order of the keys map, the update
bind plan's WHERE clause consists of exactly one equality term per
primary-key field, in that (unspecified map-iteration) order, joined by
` and `, followed by exactly one additional ` and ` equality term for the
version column when one is configured (as a settable column appearing
once in the columns iteration); with no version column there is no extra
term. -/
theorem update_where_shape (d : Dialect) (m : ModelInfo) (flt : FieldInfo → Bool)
    (colsIter keysIter : List FieldInfo)
    (hk : keysIter.Perm (m.fields.keys.map Prod.snd))
    (hv : match m.version with
      | none => True
      | some v => v.name ≠ "" ∧ settableCol flt v = true ∧ colsIter.count v = 1) :
    (bindUpdatePlan d m flt colsIter keysIter).query =
      (updateSetState d m flt colsIter).sql ++ " where " ++
      joinSep " and " (renderKeys d 0 keysIter) ++
      (match m.version with
        | none => ""
        | some v => " and " ++ d.quoteField v.column ++ "=" ++
            d.bindVar (updateSetState d m flt colsIter).x) ++
      d.querySuffix := by
  unfold bindUpdatePlan
  match hm : m.version with
  | none =>
      have hvf : (updateSetState d m flt colsIter).versField = "" := by
        unfold updateSetState
        rw [hm]
        exact setLoop_versField_none d flt colsIter _
      simp only [updateSetState] at hvf ⊢
      rw [hm] at hvf ⊢
      simp only [hvf]
      simp [updateWhere_zero, String.append_assoc]
  | some v =>
      rw [hm] at hv
      obtain ⟨hn, hs, hc⟩ := hv
      have hvf : (updateSetState d m flt colsIter).versField = v.name := by
        unfold updateSetState
        rw [hm]
        exact setLoop_versField_once d flt v colsIter _ hs hc
      simp only [updateSetState] at hvf ⊢
      rw [hm] at hvf ⊢
      simp only [hvf]
      simp [hn, updateWhere_zero, versionColumn, String.append_assoc]

/-- C2 witness: the shape theorem applied to a versioned single-key model,
with the resulting query evaluated. -/
theorem update_where_shape_witness :
    (bindUpdatePlan sampleDialect mVersioned (fun _ => true)
        [idF, nameF, verF] [idF]).query =
      "update t_doc set id=?, name=?, version=? where id=? and version=?;" :=
  (update_where_shape sampleDialect mVersioned (fun _ => true) [idF, nameF, verF] [idF]
    (List.Perm.refl _)
    (show verF.name ≠ "" ∧ settableCol (fun _ => true) verF = true ∧
        List.count verF [idF, nameF, verF] = 1 from ⟨by decide, by decide, by decide⟩)).trans
    rfl

/-- C8: model registration is unique on both axes: a registration whose
fully-qualified identity or whose table name is already present fails
fatally, and a registration fresh on both axes succeeds and is recorded
in the registry under both its table name and its identity. -/
theorem register_model_unique_axes (mc : ModelCache) (table : String) (mi : ModelInfo) :
    (((mcGetByFullName mc mi.fullName).isSome = true ∨ (mcGet mc table).isSome = true) →
      exOk (RegisterModelW mc table mi) = false) ∧
    ((mcGetByFullName mc mi.fullName) = none → (mcGet mc table) = none →
      RegisterModelW mc table mi =
        .ok (mcSet mc table { mi with table := table, manual := true }).1 ∧
      mcGet (mcSet mc table { mi with table := table, manual := true }).1 table =
        some { mi with table := table, manual := true } ∧
      mcGetByFullName (mcSet mc table { mi with table := table, manual := true }).1
          mi.fullName =
        some { mi with table := table, manual := true }) := by
  constructor
  · intro h
    cases hf : (mcGetByFullName mc mi.fullName).isSome with
    | true => simp [RegisterModelW, hf, exOk]
    | false =>
        have ht : (mcGet mc table).isSome = true := by
          rcases h with h | h
          · rw [hf] at h; exact absurd h (by simp)
          · exact h
        simp [RegisterModelW, hf, ht, exOk]
  · intro h1 h2
    refine ⟨?_, ?_, ?_⟩
    · simp [RegisterModelW, h1, h2]
    · simp [mcGet, mcSet, alookup_assocSet_self]
    · simp [mcGetByFullName, mcSet, alookup_assocSet_self]

/-- C8 witness: registering `User` into an empty registry succeeds and is
recorded under both keys; registering a distinct type that resolves to the
same table name then fails, as does re-registering the same identity. -/
theorem register_model_unique_axes_witness :
    (RegisterModelW {} "user" userM =
      .ok (mcSet {} "user" { userM with table := "user", manual := true }).1 ∧
      mcGet (mcSet {} "user" { userM with table := "user", manual := true }).1 "user" =
        some { userM with table := "user", manual := true } ∧
      mcGetByFullName (mcSet {} "user" { userM with table := "user", manual := true }).1
          userM.fullName =
        some { userM with table := "user", manual := true }) ∧
    exOk (RegisterModelW
      (mcSet {} "user" { userM with table := "user", manual := true }).1 "user" groupM) =
      false ∧
    exOk (RegisterModelW
      (mcSet {} "user" { userM with table := "user", manual := true }).1 "app_user" userM) =
      false :=
  ⟨(register_model_unique_axes {} "user" userM).2 rfl rfl,
   (register_model_unique_axes _ "user" groupM).1 (Or.inr (by decide)),
   (register_model_unique_axes _ "app_user" userM).1 (Or.inl (by decide))⟩

end RevelOrm
